import Mathlib

/-
Verification of the pepper plugin ABI header (src/pepper_plugin_api.h, the
v4 revision of the capability-table interface between the pepper editor
host and its plugins).

The header declares only types: an opaque user-data handle, three callback
function-pointer types, a byte-slice view struct and the capability-table
struct `PepperPluginApi`.  The development below embeds those declarations
as values of a small syntax of C types (so that claims about parameter
lists, return types and struct layout can be stated), together with
semantic models of the byte-slice view and of the host-side behaviour the
specification describes (command-result interpretation, plugin lifecycle,
user-data storage).
-/

mutual
/-- Syntax of the C types occurring in the pepper plugin header: `void`,
`char`, `unsigned int`, a named struct tag, pointers (with constness of the
pointee) and function pointers with their parameter list and return type. -/
inductive CType where
  | void : CType
  | char : CType
  | uint : CType
  | structRef : String → CType
  | ptr : Bool → CType → CType
  | funPtr : CTypes → CType → CType
  deriving DecidableEq
inductive CTypes where
  | nil : CTypes
  | cons : CType → CTypes → CTypes
  deriving DecidableEq
end

def CTypes.toList : CTypes → List CType
  | .nil => []
  | .cons t ts => t :: ts.toList

/-- Parameter list of a function-pointer type (empty for non-function types). -/
def CType.funParams : CType → List CType
  | .funPtr ps _ => ps.toList
  | _ => []

/-- Return type of a function-pointer type. -/
def CType.funRet : CType → CType
  | .funPtr _ r => r
  | t => t

/-- True exactly for function-pointer types. -/
def CType.isFunPtr : CType → Bool
  | .funPtr _ _ => true
  | _ => false

/-- True exactly for function-pointer types that return `void`. -/
def CType.returnsVoid : CType → Bool
  | .funPtr _ .void => true
  | _ => false

mutual
/-- Whether a type mentions the `PepperPluginApi` capability-table struct
anywhere — directly, through pointers, or inside a function-pointer
signature.  A callback whose parameter types never mention the table has no
way to reach any host operation. -/
def CType.mentionsApi : CType → Bool
  | .structRef n => n == "PepperPluginApi"
  | .ptr _ t => t.mentionsApi
  | .funPtr ps r => ps.mentionsApi || r.mentionsApi
  | _ => false
def CTypes.mentionsApi : CTypes → Bool
  | .nil => false
  | .cons t ts => t.mentionsApi || ts.mentionsApi
end

/-- A parameter shaped like a per-call context: a pointer to a named struct,
which is the form the explicit context argument of the v1/v2 revisions
took.  Byte slices are passed by value, so they do not match. -/
def CType.isCtxParam : CType → Bool
  | .ptr _ (.structRef _) => true
  | _ => false

/-- A named struct member. -/
structure CField where
  name : String
  type : CType
  deriving DecidableEq

/-- Size in bytes of a value of the given type under an LP64 ABI: pointers,
including function pointers, are 8 bytes; `unsigned int` is 4; `char` is 1;
the only struct passed by value, `PepperByteSlice`, is 16 (an 8-byte
pointer, a 4-byte `unsigned int` and 4 bytes of tail padding). -/
def CType.csize : CType → Nat
  | .void => 0
  | .char => 1
  | .uint => 4
  | .structRef _ => 16
  | .ptr _ _ => 8
  | .funPtr _ _ => 8

/-- Byte offset of the `i`-th member of a struct whose members are laid out
in declaration order.  For the capability table every member is an 8-byte
function pointer, so no alignment padding occurs between members. -/
def offsetAt (fs : List CField) (i : Nat) : Nat :=
  ((fs.take i).map (fun f => f.type.csize)).sum

/-- Line 4 of the header: `typedef void *PepperPluginUserData;` — the
opaque user-data handle is a bare (non-const) `void` pointer. -/
def PepperPluginUserData : CType := .ptr false .void

/-- Line 6 of the header:
`typedef void (*PepperPluginDeinitFn)(PepperPluginUserData);`. -/
def PepperPluginDeinitFn : CType :=
  .funPtr (.cons PepperPluginUserData .nil) .void

/-- The type `const struct PepperPluginApi *`: a pointer to the (const)
capability table, as received by command functions and event handlers. -/
def apiConstPtr : CType := .ptr true (.structRef "PepperPluginApi")

/-- Line 8 of the header: `typedef void (*PepperPluginEventHandlerFn)(const
struct PepperPluginApi*, PepperPluginUserData);`. -/
def PepperPluginEventHandlerFn : CType :=
  .funPtr (.cons apiConstPtr (.cons PepperPluginUserData .nil)) .void

/-- The type `const char *`: a nullable pointer to constant characters, the
header's representation of an optional human-readable string. -/
def constCharPtr : CType := .ptr true .char

/-- Lines 10-13 of the header: the members of `struct PepperByteSlice`,
namely `const char *bytes;` and `unsigned int len;`. -/
def PepperByteSliceFields : List CField :=
  [⟨"bytes", constCharPtr⟩, ⟨"len", .uint⟩]

/-- The type `struct PepperByteSlice`, as passed by value to table calls. -/
def byteSliceTy : CType := .structRef "PepperByteSlice"

/-- Line 15 of the header: `typedef const char
*(*PepperPluginCommandFn)(const struct PepperPluginApi *api,
PepperPluginUserData userdata);`. -/
def PepperPluginCommandFn : CType :=
  .funPtr (.cons apiConstPtr (.cons PepperPluginUserData .nil)) constCharPtr

/-- Lines 17-22 of the header: the members of `struct PepperPluginApi` (the
capability table), in declaration order. -/
def PepperPluginApiFields : List CField :=
  [⟨"set_deinit_fn", .funPtr (.cons PepperPluginDeinitFn .nil) .void⟩,
   ⟨"set_event_handler_fn", .funPtr (.cons PepperPluginEventHandlerFn .nil) .void⟩,
   ⟨"register_command", .funPtr (.cons byteSliceTy (.cons PepperPluginCommandFn .nil)) .void⟩,
   ⟨"write_to_statusbar", .funPtr (.cons .uint (.cons byteSliceTy .nil)) .void⟩]

/-- Parameter list the specification's v3/v4 table row gives for
`register_command`: exactly a name slice and a command function (written
from the spec's words, to be compared with the header's declaration). -/
def specV4RegisterCommandParams : List CType := [byteSliceTy, PepperPluginCommandFn]

/-- Parameter list the specification's v3/v4 table row gives for
`write_to_statusbar`: exactly a level and a message slice (written from the
spec's words, to be compared with the header's declaration). -/
def specV4WriteToStatusbarParams : List CType := [.uint, byteSliceTy]

/-- Modulus of the C `unsigned int` type (32 bits). -/
def uintMod : Nat := 2 ^ 32

/-- Semantic model of `struct PepperByteSlice`: a non-owning view of bytes,
holding the address of the first byte and a length.  Addresses and lengths
are natural numbers; the length of any slice built from C values has passed
through the `unsigned int` field (see `mkSlice`). -/
structure PepperByteSlice where
  bytes : Nat
  len : Nat
  deriving DecidableEq

/-- Construction of a `PepperByteSlice` from a pointer and a length, the
length being stored in the C `unsigned int` field. -/
def mkSlice (ptr len : Nat) : PepperByteSlice := ⟨ptr, len % uintMod⟩

/-- Reading a slice back: the `len` bytes of memory starting at address
`bytes`.  Memory is a total map from byte addresses to byte values. -/
def readSlice (mem : Nat → Nat) (s : PepperByteSlice) : List Nat :=
  (List.range s.len).map fun i => mem (s.bytes + i)

/-- Reading a slice with the memory state threaded through explicitly: the
read returns the bytes together with the resulting memory, which it never
writes. -/
def readSliceSt (mem : Nat → Nat) (s : PepperByteSlice) : (List Nat) × (Nat → Nat) :=
  (readSlice mem s, mem)

/-- Outcome of one command invocation as the host sees it. -/
inductive CommandOutcome where
  | success : CommandOutcome
  | failure : String → CommandOutcome
  deriving DecidableEq

/-- Modelled from the spec: the host-side interpretation of the
`const char *` a command function returns — the host's dispatch code is not
part of this repository.  `none` models a NULL pointer.  Spec: a command
handler returning a null/empty result is treated as success; a handler
returning a non-empty string is treated as failure and that exact string is
the one surfaced. -/
def interpretCommandReturn : Option String → CommandOutcome
  | none => .success
  | some s => if s = "" then .success else .failure s

/-- States of a plugin's relationship to the capability table, following
the specification's lifecycle; `shutdown` is the spec's terminal
"torn down" state. -/
inductive PluginState where
  | registered : PluginState
  | active : PluginState
  | shutdown : PluginState
  deriving DecidableEq

/-- The kinds of calls crossing the table boundary during a plugin's life:
registration calls made while the plugin is being set up, command and event
callbacks invoked by the host, and the final deinit callback. -/
inductive HostCall where
  | registration : HostCall
  | command : HostCall
  | event : HostCall
  | deinit : HostCall
  deriving DecidableEq

/-- Modelled from the spec: the lifecycle state machine (the host's event
loop is not part of this repository).  Registration calls happen only
before the host starts invoking callbacks; command/event callbacks may
happen any number of times while the plugin is alive; the deinit callback
moves the plugin to `shutdown`, after which no call is allowed. -/
def stepPlugin : PluginState → HostCall → Option PluginState
  | .registered, .registration => some .registered
  | .registered, .command => some .active
  | .registered, .event => some .active
  | .registered, .deinit => some .shutdown
  | .active, .registration => none
  | .active, .command => some .active
  | .active, .event => some .active
  | .active, .deinit => some .shutdown
  | .shutdown, _ => none

/-- Run of a sequence of host calls from a given state; `none` when some
call in the sequence is not allowed. -/
def runPlugin : PluginState → List HostCall → Option PluginState
  | s, [] => some s
  | s, c :: cs =>
    match stepPlugin s c with
    | some t => runPlugin t cs
    | none => none

/-- A call sequence the lifecycle admits, starting from a freshly
registered plugin. -/
def ValidTrace (cs : List HostCall) : Prop :=
  (runPlugin .registered cs).isSome = true

/-- A complete execution of the lifecycle: a call sequence accepted from a
freshly registered plugin and ending with the plugin torn down. -/
def CompleteTrace (cs : List HostCall) : Prop :=
  runPlugin .registered cs = some .shutdown

/-- One plugin-initiated table operation, as recorded by the host.
Function pointers are modelled by numeric code addresses and byte slices by
the byte lists they view. -/
inductive HostOp where
  | registerCommand : List Nat → Nat → HostOp
  | setDeinitFn : Nat → HostOp
  | setEventHandlerFn : Nat → HostOp
  | writeToStatusbar : Nat → List Nat → HostOp
  deriving DecidableEq

/-- Modelled from the spec: the host-side record for one loaded plugin —
the stored opaque user data (a raw pointer value the host never
dereferences), the command registry, the two single-callback registrations
and the status-bar log.  The host implementation is not part of this
repository. -/
structure HostPluginState where
  userdata : Nat
  commands : List ((List Nat) × Nat)
  deinitFn : Option Nat
  eventHandlerFn : Option Nat
  statusbar : List (Nat × (List Nat))
  deriving DecidableEq

/-- Modelled from the spec: the host state for a freshly loaded plugin that
supplied user data `ud`. -/
def initHost (ud : Nat) : HostPluginState :=
  ⟨ud, [], none, none, []⟩

/-- Modelled from the spec: the effect of one table operation on the host's
record.  `set_deinit_fn` and `set_event_handler_fn` store single callbacks;
`register_command` extends the registry; `write_to_statusbar` appends to
the status log.  No operation touches the stored user data. -/
def applyOp (st : HostPluginState) (op : HostOp) : HostPluginState :=
  match op with
  | .registerCommand name fnId => { st with commands := (name, fnId) :: st.commands }
  | .setDeinitFn fnId => { st with deinitFn := some fnId }
  | .setEventHandlerFn fnId => { st with eventHandlerFn := some fnId }
  | .writeToStatusbar level msg => { st with statusbar := (level, msg) :: st.statusbar }

/-- The user-data value the host passes to every callback it invokes on the
plugin — command, event and deinit callbacks alike. -/
def callbackUserData (st : HostPluginState) : Nat := st.userdata

theorem runPlugin_cons (s : PluginState) (c : HostCall) (cs : List HostCall) :
    runPlugin s (c :: cs) = (stepPlugin s c).bind (fun t => runPlugin t cs) := by
  cases h : stepPlugin s c <;> simp [runPlugin, h]

theorem runPlugin_append (xs ys : List HostCall) (s : PluginState) :
    runPlugin s (xs ++ ys) = (runPlugin s xs).bind (fun t => runPlugin t ys) := by
  induction xs generalizing s with
  | nil => rfl
  | cons c cs ih =>
    rw [List.cons_append, runPlugin_cons, runPlugin_cons]
    cases h : stepPlugin s c <;> simp [h, ih]

theorem stepPlugin_shutdown_char :
    ∀ s c u, stepPlugin s c = some u → s ≠ PluginState.shutdown →
      (u = PluginState.shutdown ↔ c = HostCall.deinit) := by
  intro s c u
  cases s <;> cases c <;> cases u <;> decide

theorem runPlugin_shutdown (cs : List HostCall) (t : PluginState)
    (h : runPlugin PluginState.shutdown cs = some t) :
    cs = [] ∧ t = PluginState.shutdown := by
  cases cs with
  | nil =>
    have h2 : some PluginState.shutdown = some t := h
    exact ⟨rfl, (Option.some.inj h2).symm⟩
  | cons c cs =>
    rw [runPlugin_cons] at h
    have hc : stepPlugin PluginState.shutdown c = none := by cases c <;> rfl
    rw [hc] at h
    exact absurd h (by simp)

theorem runPlugin_deinit_count (cs : List HostCall) :
    ∀ s t : PluginState, s ≠ PluginState.shutdown → runPlugin s cs = some t →
      cs.count HostCall.deinit = (if t = PluginState.shutdown then 1 else 0) := by
  induction cs with
  | nil =>
    intro s t hs h
    have ht : s = t := Option.some.inj h
    subst ht
    simp [hs]
  | cons c cs ih =>
    intro s t hs h
    rw [runPlugin_cons] at h
    cases hc : stepPlugin s c with
    | none => rw [hc] at h; exact absurd h (by simp)
    | some u =>
      rw [hc] at h
      simp only [Option.some_bind] at h
      by_cases hcd : c = HostCall.deinit
      · subst hcd
        have hu : u = PluginState.shutdown :=
          (stepPlugin_shutdown_char s HostCall.deinit u hc hs).mpr rfl
        subst hu
        obtain ⟨hnil, hts⟩ := runPlugin_shutdown cs t h
        subst hnil
        subst hts
        simp
      · have hu : u ≠ PluginState.shutdown := by
          intro he
          exact hcd ((stepPlugin_shutdown_char s c u hc hs).mp he)
        have hcount := ih u t hu h
        simp [List.count_cons, hcount, hcd]

/-- C1 counterexample: the v4 `PepperPluginCommandFn` takes no per-call
context parameter — no type can stand between the table pointer and the
user data, because the declared parameter list has exactly two entries. -/
theorem commandfn_no_context_param :
    ¬ ∃ ctxTy : CType,
        CType.funParams PepperPluginCommandFn =
          [apiConstPtr, ctxTy, PepperPluginUserData] := by
  rintro ⟨c, h⟩
  have h2 : (2 : Nat) = 3 := congrArg List.length h
  exact absurd h2 (by decide)

/-- C1 (amended): `PepperPluginCommandFn` is a function-pointer type whose
parameters are the capability table (a pointer to the const
`PepperPluginApi` struct) and the plugin's opaque user data — with no
per-call context parameter — and whose return type is `const char *`, the
representation of an optional human-readable error/result string. -/
theorem commandfn_signature :
    CType.isFunPtr PepperPluginCommandFn = true ∧
    CType.funParams PepperPluginCommandFn = [apiConstPtr, PepperPluginUserData] ∧
    CType.funRet PepperPluginCommandFn = constCharPtr :=
  ⟨rfl, rfl, rfl⟩

/-- C2: the host treats a NULL or empty returned string as success and a
non-empty returned string as a failure carrying exactly that string, and
the returned `const char *` is the command function's only output channel:
its parameters are just the (const) table pointer and the user data, and
its return type is the optional string. -/
theorem command_return_error_channel (s : String) (hs : s ≠ "") :
    interpretCommandReturn none = CommandOutcome.success ∧
    interpretCommandReturn (some "") = CommandOutcome.success ∧
    interpretCommandReturn (some s) = CommandOutcome.failure s ∧
    CType.funRet PepperPluginCommandFn = constCharPtr ∧
    CType.funParams PepperPluginCommandFn = [apiConstPtr, PepperPluginUserData] := by
  refine ⟨rfl, by simp [interpretCommandReturn], ?_, rfl, rfl⟩
  simp [interpretCommandReturn, hs]

theorem command_return_error_channel_witness :
    interpretCommandReturn none = CommandOutcome.success ∧
    interpretCommandReturn (some "") = CommandOutcome.success ∧
    interpretCommandReturn (some "disk full") = CommandOutcome.failure "disk full" ∧
    CType.funRet PepperPluginCommandFn = constCharPtr ∧
    CType.funParams PepperPluginCommandFn = [apiConstPtr, PepperPluginUserData] :=
  command_return_error_channel "disk full" (by decide)

/-- C3: in the v4 table the `register_command` member takes exactly the
name slice and the command function and the `write_to_statusbar` member
takes exactly the level and the message slice, matching the
specification's v3/v4 row, and no member of the table has a parameter of
the per-call-context shape. -/
theorem table_matches_v4_shape_no_context :
    PepperPluginApiFields.map (fun f => (f.name, f.type.funParams)) =
      [("set_deinit_fn", [PepperPluginDeinitFn]),
       ("set_event_handler_fn", [PepperPluginEventHandlerFn]),
       ("register_command", specV4RegisterCommandParams),
       ("write_to_statusbar", specV4WriteToStatusbarParams)] ∧
    PepperPluginApiFields.all
      (fun f => f.type.funParams.all (fun p => !p.isCtxParam)) = true :=
  ⟨rfl, rfl⟩

/-- C4: the deinit callback type, the event-handler callback type and all
four capability-table members (`set_deinit_fn`, `set_event_handler_fn`,
`register_command`, `write_to_statusbar`) are function pointers returning
`void`: none of them has any value-returning error channel. -/
theorem no_return_value_outside_commands :
    CType.returnsVoid PepperPluginDeinitFn = true ∧
    CType.returnsVoid PepperPluginEventHandlerFn = true ∧
    PepperPluginApiFields.all (fun f => f.type.returnsVoid) = true :=
  ⟨rfl, rfl, rfl⟩

/-- C5: in every complete execution of the plugin lifecycle the host
invokes the deinit callback exactly once, and in any call sequence the
lifecycle admits nothing follows a deinit call: no command or event
callback reaches the plugin after teardown. -/
theorem deinit_exactly_once_and_final (cs pre post : List HostCall)
    (hC : CompleteTrace cs) (hV : ValidTrace (pre ++ HostCall.deinit :: post)) :
    cs.count HostCall.deinit = 1 ∧ post = [] := by
  constructor
  · have hcount :=
      runPlugin_deinit_count cs PluginState.registered PluginState.shutdown (by decide) hC
    simpa using hcount
  · unfold ValidTrace at hV
    rw [runPlugin_append] at hV
    cases hpre : runPlugin PluginState.registered pre with
    | none => rw [hpre] at hV; exact absurd hV (by simp)
    | some t =>
      rw [hpre] at hV
      simp only [Option.some_bind] at hV
      rw [runPlugin_cons] at hV
      cases hst : stepPlugin t HostCall.deinit with
      | none => rw [hst] at hV; exact absurd hV (by simp)
      | some u =>
        rw [hst] at hV
        simp only [Option.some_bind] at hV
        have ht : t ≠ PluginState.shutdown := by
          intro he
          subst he
          have hnone : stepPlugin PluginState.shutdown HostCall.deinit = none := rfl
          rw [hnone] at hst
          exact absurd hst (by simp)
        have hu : u = PluginState.shutdown :=
          (stepPlugin_shutdown_char t HostCall.deinit u hst ht).mpr rfl
        subst hu
        cases hrun : runPlugin PluginState.shutdown post with
        | none => rw [hrun] at hV; exact absurd hV (by simp)
        | some w => exact (runPlugin_shutdown post w hrun).1

theorem deinit_exactly_once_and_final_witness :
    [HostCall.registration, HostCall.command, HostCall.deinit].count HostCall.deinit = 1 ∧
      ([] : List HostCall) = [] :=
  deinit_exactly_once_and_final
    [HostCall.registration, HostCall.command, HostCall.deinit]
    [HostCall.registration, HostCall.command] []
    (by unfold CompleteTrace; decide) (by unfold ValidTrace; decide)

/-- C6: every member of the capability table is a function pointer (never
inline data), and the layout is append-stable: extending the table with
any further members leaves the byte offset of each existing member
unchanged. -/
theorem table_all_funptr_offsets_stable (extra : List CField) (i : Nat)
    (h : i < PepperPluginApiFields.length) :
    PepperPluginApiFields.all (fun f => f.type.isFunPtr) = true ∧
    offsetAt (PepperPluginApiFields ++ extra) i = offsetAt PepperPluginApiFields i := by
  refine ⟨rfl, ?_⟩
  unfold offsetAt
  rw [List.take_append_of_le_length (Nat.le_of_lt h)]

theorem table_all_funptr_offsets_stable_witness :
    PepperPluginApiFields.all (fun f => f.type.isFunPtr) = true ∧
    offsetAt (PepperPluginApiFields ++ [⟨"resize_buffer", CType.funPtr .nil .void⟩]) 3 =
      offsetAt PepperPluginApiFields 3 :=
  table_all_funptr_offsets_stable [⟨"resize_buffer", CType.funPtr .nil .void⟩] 3 (by decide)

/-- C7: whatever sequence of table operations a plugin performs after
load, the user-data value the host hands to every subsequent callback is
exactly the value the plugin supplied at load time: the host stores the
opaque handle and echoes it back unmodified, never interpreting it. -/
theorem userdata_echoed_unmodified (ud : Nat) (ops : List HostOp) :
    callbackUserData (ops.foldl applyOp (initHost ud)) = ud := by
  have h : ∀ st : HostPluginState, (ops.foldl applyOp st).userdata = st.userdata := by
    induction ops with
    | nil => intro st; rfl
    | cons op ops ih =>
      intro st
      rw [List.foldl_cons, ih]
      cases op <;> rfl
  exact h (initHost ud)

/-- C8: constructing a byte slice from a valid pointer/length pair and
reading it back yields exactly the original `len` bytes starting at `ptr`;
the slice stores the address rather than a copy of the bytes, and the read
leaves the underlying memory untouched. -/
theorem slice_roundtrip (mem : Nat → Nat) (ptr len : Nat) (h : len < uintMod) :
    (mkSlice ptr len).bytes = ptr ∧
    (readSlice mem (mkSlice ptr len)).length = len ∧
    (∀ i, i < len → (readSlice mem (mkSlice ptr len))[i]? = some (mem (ptr + i))) ∧
    (readSliceSt mem (mkSlice ptr len)).2 = mem := by
  refine ⟨rfl, ?_, ?_, rfl⟩
  · simp [readSlice, mkSlice, Nat.mod_eq_of_lt h]
  · intro i hi
    simp [readSlice, mkSlice, Nat.mod_eq_of_lt h, List.getElem?_range, hi]

theorem slice_roundtrip_witness :
    (mkSlice 100 3).bytes = 100 ∧
    (readSlice (fun a => a) (mkSlice 100 3)).length = 3 ∧
    (∀ i, i < 3 → (readSlice (fun a => a) (mkSlice 100 3))[i]? = some ((fun a => a) (100 + i))) ∧
    (readSliceSt (fun a => a) (mkSlice 100 3)).2 = (fun a => a) :=
  slice_roundtrip (fun a => a) 100 3 (by decide)

/-- C9: the `len` member of `PepperByteSlice` is declared `unsigned int`,
so every slice handed to `register_command` or `write_to_statusbar`
describes at most 2^32 - 1 bytes, and a negative length is unrepresentable
(lengths in the model are natural numbers reduced modulo 2^32). -/
theorem slice_len_unsigned_int_bound :
    (∃ f : CField, f ∈ PepperByteSliceFields ∧ f.name = "len" ∧ f.type = CType.uint) ∧
    (∀ ptr len : Nat, (mkSlice ptr len).len ≤ uintMod - 1) := by
  constructor
  · exact ⟨⟨"len", CType.uint⟩, by decide, rfl, rfl⟩
  · intro ptr len
    show len % 4294967296 ≤ 4294967296 - 1
    omega

/-- C10: command functions and event handlers receive a pointer to the
capability table as their first parameter, while the deinit callback
receives only the opaque user data, whose type never mentions the
`PepperPluginApi` struct: during deinitialization a plugin has no channel
through which to call back into the host. -/
theorem deinit_has_no_host_channel :
    (CType.funParams PepperPluginCommandFn).head? = some apiConstPtr ∧
    (CType.funParams PepperPluginEventHandlerFn).head? = some apiConstPtr ∧
    CType.funParams PepperPluginDeinitFn = [PepperPluginUserData] ∧
    (CType.funParams PepperPluginDeinitFn).all (fun p => !p.mentionsApi) = true :=
  ⟨rfl, rfl, rfl, rfl⟩
